import Mathlib

/-!
Verification of `src/add-to-project.ts` (the add-to-project GitHub action).

The TypeScript source is a straight-line sequence of conditional GraphQL
calls. We embed it shallowly:

* pure string manipulation (label parsing, operator normalisation, the URL
  regex) becomes Lean functions; the JavaScript string methods involved
  (`trim`, `toLowerCase`, `split`, `startsWith`-style prefix tests) are
  implemented over `String.data : List Char` by structural recursion so that
  every definition evaluates inside the kernel;
* the remote GraphQL service is a record of mocked responses (`Remote`);
* the run itself (`addToProject`, `updateStatusFieldValueOnCard`) is a pure
  function returning the ordered list of remote calls / output writes it
  performs (`List Effect`) together with its outcome (`Except String Unit`,
  `Except.error` standing for a thrown `Error`).

JavaScript `undefined` is modelled by `Option`; `toLocaleLowerCase()` without
a locale argument acts as ASCII lower-casing on the operator strings
involved, modelled by `Char.toLower` mapped over the characters.
-/

deriving instance DecidableEq for Except

namespace AddToProject

/-- JavaScript `toLowerCase()` at the character-list level. -/
def lowerChars (l : List Char) : List Char := l.map Char.toLower

/-- JavaScript `toLowerCase()` on a string. -/
def lowerString (s : String) : String := ⟨lowerChars s.data⟩

/-- The whitespace characters relevant to `trim()` for the inputs involved. -/
def isJsWhitespace (c : Char) : Bool := c == ' ' || c == '\t' || c == '\n' || c == '\r'

/-- JavaScript `trim()` at the character-list level: strip whitespace from both ends. -/
def trimChars (l : List Char) : List Char :=
  ((l.dropWhile isJsWhitespace).reverse.dropWhile isJsWhitespace).reverse

/-- JavaScript `trim()` on a string. -/
def trimString (s : String) : String := ⟨trimChars s.data⟩

/-- JavaScript `split` at a comma, character-list level, accumulator style: splitting
the empty string yields `[[]]`, exactly as in JavaScript. -/
def splitOnCommaChars : List Char → List Char → List (List Char)
  | [], acc => [acc.reverse]
  | c :: cs, acc =>
    if c = ',' then acc.reverse :: splitOnCommaChars cs [] else splitOnCommaChars cs (c :: acc)

/-- Prefix test: `startsWithChars pat l` is true when `pat` is an initial segment of `l`. -/
def startsWithChars : List Char → List Char → Bool
  | [], _ => true
  | _ :: _, [] => false
  | p :: ps, c :: cs => p == c && startsWithChars ps cs

/-- The named capture groups of the regex
`^(?:https:\/\/)?github\.com\/(?<ownerType>orgs|users)\/(?<ownerName>[^\/]+)\/projects\/(?<projectNumber>\d+)`. -/
structure UrlMatch where
  ownerType : String
  ownerName : String
  projectNumber : String
deriving DecidableEq, Repr

/-- The tail of the regex after `(orgs|users)\/`: `(?<ownerName>[^\/]+)\/projects\/(?<projectNumber>\d+)`.
`[^\/]+` is greedy and cannot cross a slash, so the owner name is exactly the
segment up to the next `/`; `\d+` greedily captures the maximal digit run and
anything may follow it (the regex is not anchored at the end). -/
def matchOwnerProjects (ot : String) (u : List Char) : Option UrlMatch :=
  let ownerName := u.takeWhile (fun c => c != '/')
  if ownerName.isEmpty then none
  else
    let v := u.drop ownerName.length
    if startsWithChars "/projects/".data v then
      let digits := (v.drop 10).takeWhile Char.isDigit
      if digits.isEmpty then none else some ⟨ot, ⟨ownerName⟩, ⟨digits⟩⟩
    else none

/-- The regex body after the optional scheme: `github\.com\/(orgs|users)\/...`.
The two alternatives of `(orgs|users)` start with different letters, so the
alternation is deterministic. -/
def matchGithubPath (t : List Char) : Option UrlMatch :=
  if startsWithChars "github.com/".data t then
    let u := t.drop 11
    if startsWithChars "orgs/".data u then matchOwnerProjects "orgs" (u.drop 5)
    else if startsWithChars "users/".data u then matchOwnerProjects "users" (u.drop 6)
    else none
  else none

/-- Embedding of `const urlParse = /^(?:https:\/\/)?github\.com\/(?<ownerType>orgs|users)\/(?<ownerName>[^\/]+)\/projects\/(?<projectNumber>\d+)/`
applied via `projectUrl.match(urlParse)`. The regex is anchored at the start;
when the input starts with `https://` the empty alternative of the optional
non-capturing scheme group can never succeed (the input would then have to
start with `github.com` as well), so stripping the scheme first is
equivalent. -/
def urlParse (s : String) : Option UrlMatch :=
  matchGithubPath (if startsWithChars "https://".data s.data then s.data.drop 8 else s.data)

/-- Embedding of `type OwnerQueryTypes = "organization" | "user"` (the source writes the union with single-quoted literals). -/
inductive OwnerQueryTypes
  | organization
  | user
deriving DecidableEq, Repr

/-- Embedding of `mustGetOwnerTypeQuery(ownerType?: string): OwnerQueryTypes` — maps
`orgs` to `organization` and `users` to `user`, throwing on anything else
(including `undefined`). -/
def mustGetOwnerTypeQuery (ownerType : Option String) : Except String OwnerQueryTypes :=
  if ownerType = some "orgs" then Except.ok OwnerQueryTypes.organization
  else if ownerType = some "users" then Except.ok OwnerQueryTypes.user
  else Except.error ("Unsupported ownerType: " ++ (ownerType.getD "undefined") ++
    ". Must be one of orgs or users")

/-- Embedding of `parseInt(s, 10)` on the digit-only capture `projectNumber`. -/
def parseDigits (s : String) : Nat :=
  s.data.foldl (fun n c => n * 10 + (c.toNat - 48)) 0

/-- The triggering issue / pull request payload fields the action reads.
`labels` holds the raw label names (`l.name` of each label object). -/
structure Issue where
  number : Nat
  labels : List String
  node_id : String
  html_url : String
deriving DecidableEq, Repr

/-- Embedding of `github.context.payload`: the issue (or pull request) if present, and
`repository?.owner.login`. -/
structure Payload where
  issue : Option Issue
  repoOwnerLogin : Option String
deriving DecidableEq, Repr

/-- The action inputs read via `core.getInput` (all default to `""` when
unset). -/
structure Inputs where
  projectUrl : String
  labeled : String
  labelOperator : String
  statusOverride : String
deriving DecidableEq, Repr

/-- One `{id, name}` entry of a single-select field option list. -/
structure StatusOption where
  id : String
  name : String
deriving DecidableEq, Repr

/-- The `field` part of `ProjectV2FieldIDResponse` under the owner-type root:
`field.id` plus the option list, which may be absent at runtime (the source
guards it with `|| []`). -/
structure StatusField where
  fieldId : String
  options : Option (List StatusOption)
deriving DecidableEq, Repr

/-- Mocked remote GraphQL responses for the read operations:
`projectV2Id` is `idResp[ownerTypeQuery]?.projectV2.id` (`none` when the
response lacks the owner-type root), `addItemId` is
`addResp.addProjectV2ItemById.item.id`, `addDraftItemId` is
`addResp.addProjectV2DraftIssue.projectItem.id`, and `statusField` is
`statusFieldIdResp[projectOwnerTypeQuery]?.projectV2.field`. -/
structure Remote where
  projectV2Id : Option String
  addItemId : String
  addDraftItemId : String
  statusField : Option StatusField
deriving DecidableEq, Repr

/-- The observable actions of a run, in program order: the queries and
mutations sent through `octokit.graphql` and the `core.setOutput` call. -/
inductive Effect
  | queryProjectId (q : OwnerQueryTypes) (owner : String) (number : Nat)
  | addItemById (projectId : Option String) (contentId : Option String)
  | addDraftIssue (projectId : Option String) (title : Option String)
  | setOutputItemId (itemId : String)
  | queryStatusField (q : OwnerQueryTypes) (owner : String) (number : Nat)
  | updateFieldValue (projectId : String) (itemId : String) (fieldId : Option String)
      (optionId : String)
deriving DecidableEq, Repr

/-- Embedding of the labeled-input parsing
`split(",").map(l => l.trim().toLowerCase()).filter(l => l.length > 0)`;
`!l.isEmpty` is `l.length > 0` of the source. -/
def parseLabels (s : String) : List String :=
  (((splitOnCommaChars s.data []).map (fun l => lowerChars (trimChars l))).filter
      (fun l => !l.isEmpty)).map (fun l => (⟨l⟩ : String))

/-- Embedding of `(issue?.labels ?? []).map(l => l.name.toLowerCase())`. -/
def issueLabelsOf (p : Payload) : List String :=
  ((p.issue.map Issue.labels).getD []).map lowerString

/-- The label-operator gate of lines 96-111: `labelOperator` is already
trimmed and lower-cased; the result is `true` when the run proceeds past the
filter and `false` when it returns early (a deliberate skip).
`!labeled.isEmpty` is `labeled.length > 0` of the source. -/
def labelFilterProceeds (labelOperator : String) (labeled issueLabels : List String) : Bool :=
  if labelOperator = "and" then labeled.all (fun l => issueLabels.contains l)
  else if labelOperator = "not" then
    !(!labeled.isEmpty && issueLabels.any (fun l => labeled.contains l))
  else
    !(!labeled.isEmpty && !issueLabels.any (fun l => labeled.contains l))

/-- The whole label filter as evaluated by `addToProject`, including the
input normalisations: `labeled` parsing and
`core.getInput("label-operator").trim().toLocaleLowerCase()`. -/
def filterGate (inp : Inputs) (p : Payload) : Bool :=
  labelFilterProceeds (lowerString (trimString inp.labelOperator)) (parseLabels inp.labeled)
    (issueLabelsOf p)

/-- The message of the `Invalid project URL` error (line 118). -/
def invalidUrlMessage (projectUrl : String) : String :=
  "Invalid project URL: " ++ projectUrl ++
    ". Project URL should match the format https://github.com/<orgs-or-users>/<ownerName>/projects/<projectNumber>"

/-- The message of the `Project ID is undefined` error (line 203); the
interpolated response object is elided. -/
def projectIdUndefinedMessage : String :=
  "Project ID is undefined. This should not happen."

/-- The message of the invalid status-override error (line 287). -/
def invalidStatusMessage (statusFieldOverride : String) : String :=
  "Invalid Status field option value provided: " ++ statusFieldOverride

/-- Embedding of `(statusFieldIdResp[projectOwnerTypeQuery]?.projectV2.field.options || [])`. -/
def statusFieldOptions (r : Remote) : List StatusOption :=
  match r.statusField with
  | none => []
  | some f => f.options.getD []

/-- Embedding of `updateStatusFieldValueOnCard` (lines 233-311): skips when the
`status-override` input is empty; otherwise queries the Status field, looks
up the option whose name equals the override exactly, throws when there is
none, and otherwise issues the update mutation with the resolved option id. -/
def updateStatusFieldValueOnCard (q : OwnerQueryTypes) (projectOwnerName : String)
    (projectNumber : Nat) (projectId : String) (itemId : String)
    (statusFieldOverride : String) (r : Remote) : List Effect × Except String Unit :=
  if statusFieldOverride.data.length = 0 then ([], Except.ok ())
  else
    let queryEff := Effect.queryStatusField q projectOwnerName projectNumber
    let statusFieldId := r.statusField.map StatusField.fieldId
    let requiredOptionId :=
      ((statusFieldOptions r).find? (fun o => o.name == statusFieldOverride)).map StatusOption.id
    match requiredOptionId with
    | none => ([queryEff], Except.error (invalidStatusMessage statusFieldOverride))
    | some oid =>
      ([queryEff, Effect.updateFieldValue projectId itemId statusFieldId oid], Except.ok ())

/-- Embedding of `addToProject` (lines 76-209). In source order: parse the inputs,
evaluate the label filter (early `return` on a non-match), match the project
URL (throw on failure), resolve the owner-type query root, send the
project-id query, then send the add-item mutation when
`issueOwnerName === projectOwnerName` and the add-draft-issue mutation
otherwise (each followed by `core.setOutput("itemId", ...)`), then check
`projectId === undefined` (throwing), and finally run the status-field
update. The `projectOwnerName === undefined` check of line 205 is
unreachable in the model because a successful regex match always populates
the `ownerName` capture. -/
def addToProject (inp : Inputs) (p : Payload) (r : Remote) : List Effect × Except String Unit :=
  if !filterGate inp p then ([], Except.ok ())
  else
    match urlParse inp.projectUrl with
    | none => ([], Except.error (invalidUrlMessage inp.projectUrl))
    | some m =>
      match mustGetOwnerTypeQuery (some m.ownerType) with
      | Except.error e => ([], Except.error e)
      | Except.ok q =>
        let projectOwnerName := m.ownerName
        let projectNumber := parseDigits m.projectNumber
        let queryEff := Effect.queryProjectId q projectOwnerName projectNumber
        let projectId := r.projectV2Id
        let contentId := p.issue.map Issue.node_id
        let mutation :=
          if p.repoOwnerLogin = some projectOwnerName then
            ([Effect.addItemById projectId contentId, Effect.setOutputItemId r.addItemId],
              r.addItemId)
          else
            ([Effect.addDraftIssue projectId (p.issue.map Issue.html_url),
              Effect.setOutputItemId r.addDraftItemId], r.addDraftItemId)
        match projectId with
        | none => (queryEff :: mutation.1, Except.error projectIdUndefinedMessage)
        | some pid =>
          let statusRun :=
            updateStatusFieldValueOnCard q projectOwnerName projectNumber pid mutation.2
              inp.statusOverride r
          (queryEff :: mutation.1 ++ statusRun.1, statusRun.2)

/-! ### Helper lemmas -/

theorem matchOwnerProjects_ownerType {ot : String} {u : List Char} {m : UrlMatch}
    (h : matchOwnerProjects ot u = some m) : m.ownerType = ot := by
  unfold matchOwnerProjects at h
  dsimp only at h
  split_ifs at h
  injection h with h
  rw [← h]

theorem matchGithubPath_ownerType {t : List Char} {m : UrlMatch}
    (h : matchGithubPath t = some m) : m.ownerType = "orgs" ∨ m.ownerType = "users" := by
  unfold matchGithubPath at h
  dsimp only at h
  split_ifs at h
  · exact Or.inl (matchOwnerProjects_ownerType h)
  · exact Or.inr (matchOwnerProjects_ownerType h)

theorem urlParse_ownerType {s : String} {m : UrlMatch} (h : urlParse s = some m) :
    m.ownerType = "orgs" ∨ m.ownerType = "users" := by
  unfold urlParse at h
  exact matchGithubPath_ownerType h

theorem run_eq_skip_iff (inp : Inputs) (p : Payload) (r : Remote) :
    addToProject inp p r = ([], Except.ok ()) ↔ filterGate inp p = false := by
  unfold addToProject
  cases hf : filterGate inp p with
  | false => simp
  | true =>
    simp only [hf, Bool.not_true, Bool.false_eq_true, if_false]
    constructor
    · intro h
      exfalso
      split at h
      · simp at h
      · split at h
        · simp at h
        · split at h <;> simp at h
    · intro h
      exact absurd h (by simp)

/-- Claim C8: when the label filter does not match, `addToProject` returns
normally with no effects: no remote call, no output write, no thrown error. -/
theorem filter_skip_no_side_effects (inp : Inputs) (p : Payload) (r : Remote)
    (h : filterGate inp p = false) : addToProject inp p r = ([], Except.ok ()) := by
  unfold addToProject
  rw [h]
  rfl

theorem filter_skip_no_side_effects_witness :
    filterGate ⟨"u", "bug", "and", ""⟩ ⟨none, none⟩ = false ∧
      addToProject ⟨"u", "bug", "and", ""⟩ ⟨none, none⟩ ⟨none, "", "", none⟩ =
        ([], Except.ok ()) :=
  ⟨by decide, filter_skip_no_side_effects _ _ _ (by decide)⟩

/-- Claim C1: the code violates the claimed ordering. On a run where the
project-id query response lacks the identifier (`projectV2Id = none`) the
add-item mutation is still issued (with an undefined `projectId`, in program
order right after the query), and the `Project ID is undefined` error is
only raised afterwards. -/
theorem addToProject_mutation_before_projectId_check :
    addToProject ⟨"https://github.com/orgs/acme/projects/7", "", "", ""⟩
        ⟨some ⟨1, [], "NODE1", "https://github.com/acme/widgets/issues/1"⟩, some "acme"⟩
        ⟨none, "ITEM1", "DRAFT1", none⟩ =
      ([Effect.queryProjectId OwnerQueryTypes.organization "acme" 7,
        Effect.addItemById none (some "NODE1"),
        Effect.setOutputItemId "ITEM1"], Except.error projectIdUndefinedMessage) := by
  decide

/-- Claim C10: the `Unsupported ownerType` error is unreachable from a
successful URL parse: the captured owner-type is always `orgs` or `users`,
and `mustGetOwnerTypeQuery` maps it to `organization` or `user` without
throwing. -/
theorem unsupported_ownerType_unreachable (s : String) (m : UrlMatch)
    (h : urlParse s = some m) :
    (m.ownerType = "orgs" ∧
        mustGetOwnerTypeQuery (some m.ownerType) = Except.ok OwnerQueryTypes.organization) ∨
      (m.ownerType = "users" ∧
        mustGetOwnerTypeQuery (some m.ownerType) = Except.ok OwnerQueryTypes.user) := by
  rcases urlParse_ownerType h with h1 | h1
  · exact Or.inl ⟨h1, by rw [h1]; decide⟩
  · exact Or.inr ⟨h1, by rw [h1]; decide⟩

theorem unsupported_ownerType_unreachable_witness :
    (UrlMatch.ownerType ⟨"users", "bob", "10"⟩ = "orgs" ∧
        mustGetOwnerTypeQuery (some (UrlMatch.ownerType ⟨"users", "bob", "10"⟩)) =
          Except.ok OwnerQueryTypes.organization) ∨
      (UrlMatch.ownerType ⟨"users", "bob", "10"⟩ = "users" ∧
        mustGetOwnerTypeQuery (some (UrlMatch.ownerType ⟨"users", "bob", "10"⟩)) =
          Except.ok OwnerQueryTypes.user) :=
  unsupported_ownerType_unreachable "github.com/users/bob/projects/10" _ (by decide)

/-- Claim C5: the URL parser accepts `[https://]github.com/(orgs|users)/<owner>/projects/<number>`
anchored at the start with trailing segments ignored, mapping `orgs` to
`organization` (the example yields organization / acme / 7), and any
non-matching project URL makes the run throw the descriptive
`Invalid project URL` error. -/
theorem urlParse_format_and_error :
    (urlParse "https://github.com/orgs/acme/projects/7" = some ⟨"orgs", "acme", "7"⟩ ∧
        mustGetOwnerTypeQuery (some "orgs") = Except.ok OwnerQueryTypes.organization ∧
        parseDigits "7" = 7 ∧
        urlParse "github.com/users/bob/projects/10/views/2" = some ⟨"users", "bob", "10"⟩ ∧
        mustGetOwnerTypeQuery (some "users") = Except.ok OwnerQueryTypes.user ∧
        urlParse "https://github.com/repos/acme/projects/7" = none ∧
        urlParse "https://github.com/Orgs/acme/projects/7" = none ∧
        urlParse "https://github.com/orgs/acme/projects/x" = none ∧
        urlParse "https://github.com/orgs/acme/7" = none ∧
        urlParse "xhttps://github.com/orgs/acme/projects/7" = none) ∧
      ∀ (inp : Inputs) (p : Payload) (r : Remote), urlParse inp.projectUrl = none →
        filterGate inp p = true →
        addToProject inp p r = ([], Except.error (invalidUrlMessage inp.projectUrl)) := by
  refine ⟨by decide, ?_⟩
  intro inp p r hu hf
  unfold addToProject
  rw [hf, hu]
  rfl

theorem urlParse_format_and_error_witness :
    addToProject ⟨"nonsense", "", "", ""⟩ ⟨none, none⟩ ⟨none, "", "", none⟩ =
      ([], Except.error (invalidUrlMessage "nonsense")) :=
  urlParse_format_and_error.2 ⟨"nonsense", "", "", ""⟩ ⟨none, none⟩ ⟨none, "", "", none⟩
    (by decide) (by decide)

/-- Claim C2: with operator `and`, the run proceeds past the label filter
iff every configured label (trimmed, lower-cased, empty entries removed) is
among the issue labels (lower-cased). -/
theorem label_filter_and_iff_subset (inp : Inputs) (p : Payload)
    (h : lowerString (trimString inp.labelOperator) = "and") :
    filterGate inp p = true ↔ ∀ l ∈ parseLabels inp.labeled, l ∈ issueLabelsOf p := by
  unfold filterGate labelFilterProceeds
  rw [h, if_pos rfl]
  simp [List.contains, List.elem_iff]

theorem label_filter_and_iff_subset_witness :
    (filterGate ⟨"u", "bug, docs", " AND ", ""⟩ ⟨some ⟨1, ["Bug", "Docs"], "n", "h"⟩, none⟩ = true ↔
      ∀ l ∈ parseLabels "bug, docs",
        l ∈ issueLabelsOf ⟨some ⟨1, ["Bug", "Docs"], "n", "h"⟩, none⟩) :=
  label_filter_and_iff_subset ⟨"u", "bug, docs", " AND ", ""⟩ _ (by decide)

/-- Claim C3: with operator `not`, the run skips (returns normally with no
effects) iff the configured label list is non-empty and shares a label with
the issue; otherwise it proceeds. -/
theorem label_filter_not_skip_iff (inp : Inputs) (p : Payload) (r : Remote)
    (h : lowerString (trimString inp.labelOperator) = "not") :
    addToProject inp p r = ([], Except.ok ()) ↔
      parseLabels inp.labeled ≠ [] ∧ ∃ l ∈ issueLabelsOf p, l ∈ parseLabels inp.labeled := by
  rw [run_eq_skip_iff]
  unfold filterGate labelFilterProceeds
  rw [h, if_neg (by decide), if_pos rfl]
  simp [List.contains, List.elem_iff]

theorem label_filter_not_skip_iff_witness :
    (addToProject ⟨"u", "bug", "not", ""⟩ ⟨some ⟨1, ["Bug"], "n", "h"⟩, none⟩
          ⟨none, "", "", none⟩ = ([], Except.ok ()) ↔
      parseLabels "bug" ≠ [] ∧
        ∃ l ∈ issueLabelsOf ⟨some ⟨1, ["Bug"], "n", "h"⟩, none⟩, l ∈ parseLabels "bug") :=
  label_filter_not_skip_iff ⟨"u", "bug", "not", ""⟩ _ _ (by decide)

/-- Claim C4: with any operator other than `and` and `not` (the default `or`
semantics), the run always proceeds when the configured list is empty, and
otherwise proceeds iff at least one configured label matches an issue label,
case-insensitively on both sides. -/
theorem label_filter_default_or (inp : Inputs) (p : Payload)
    (h1 : lowerString (trimString inp.labelOperator) ≠ "and")
    (h2 : lowerString (trimString inp.labelOperator) ≠ "not") :
    (parseLabels inp.labeled = [] → filterGate inp p = true) ∧
      (filterGate inp p = true ↔
        (parseLabels inp.labeled = [] ∨ ∃ l ∈ issueLabelsOf p, l ∈ parseLabels inp.labeled)) := by
  have hgate : filterGate inp p =
      !((!(parseLabels inp.labeled).isEmpty) &&
        !((issueLabelsOf p).any (fun l => (parseLabels inp.labeled).contains l))) := by
    unfold filterGate labelFilterProceeds
    rw [if_neg h1, if_neg h2]
  constructor
  · intro he
    rw [hgate, he]
    rfl
  · rw [hgate]
    simp [List.contains, List.elem_iff]

theorem label_filter_default_or_witness :
    ((parseLabels "bug, help wanted" = [] →
        filterGate ⟨"u", "bug, help wanted", "", ""⟩ ⟨some ⟨1, ["Bug"], "n", "h"⟩, none⟩ = true) ∧
      (filterGate ⟨"u", "bug, help wanted", "", ""⟩ ⟨some ⟨1, ["Bug"], "n", "h"⟩, none⟩ = true ↔
        (parseLabels "bug, help wanted" = [] ∨
          ∃ l ∈ issueLabelsOf ⟨some ⟨1, ["Bug"], "n", "h"⟩, none⟩,
            l ∈ parseLabels "bug, help wanted"))) :=
  label_filter_default_or ⟨"u", "bug, help wanted", "", ""⟩ _ (by decide) (by decide)

/-- Claim C9: the label-operator input is trimmed and lower-cased before
comparison, so raw operator strings differing only in surrounding whitespace
or letter case drive the filter identically; in particular `AND` and
` Not ` normalise to `and` and `not`. -/
theorem label_operator_normalised :
    (∀ (inp : Inputs) (p : Payload) (op2 : String),
        lowerString (trimString inp.labelOperator) = lowerString (trimString op2) →
        filterGate inp p =
          filterGate ⟨inp.projectUrl, inp.labeled, op2, inp.statusOverride⟩ p) ∧
      lowerString (trimString "AND") = "and" ∧ lowerString (trimString " Not ") = "not" := by
  refine ⟨?_, by decide, by decide⟩
  intro inp p op2 h
  unfold filterGate
  rw [h]

theorem label_operator_normalised_witness :
    filterGate ⟨"u", "bug", " Not ", ""⟩ ⟨some ⟨1, ["Bug"], "n", "h"⟩, none⟩ =
      filterGate ⟨"u", "bug", "not", ""⟩ ⟨some ⟨1, ["Bug"], "n", "h"⟩, none⟩ :=
  label_operator_normalised.1 ⟨"u", "bug", " Not ", ""⟩ _ "not" (by decide)

/-- Claim C7: the status-field update runs only when a non-empty
`status-override` is configured (otherwise it returns with no remote call);
when it runs, no exactly-matching option name means a fatal error naming the
override value (in particular when the option list is absent or empty), and
an exact match means the update mutation is issued with that option id. -/
theorem status_override_behavior (q : OwnerQueryTypes) (owner : String) (num : Nat)
    (pid iid ov : String) (r : Remote) :
    (ov.data.length = 0 →
        updateStatusFieldValueOnCard q owner num pid iid ov r = ([], Except.ok ())) ∧
      (ov.data.length ≠ 0 →
        ((∀ o ∈ statusFieldOptions r, o.name ≠ ov) →
            updateStatusFieldValueOnCard q owner num pid iid ov r =
              ([Effect.queryStatusField q owner num], Except.error (invalidStatusMessage ov))) ∧
          ∀ o, (statusFieldOptions r).find? (fun x => x.name == ov) = some o →
            o.name = ov ∧
              updateStatusFieldValueOnCard q owner num pid iid ov r =
                ([Effect.queryStatusField q owner num,
                  Effect.updateFieldValue pid iid (r.statusField.map StatusField.fieldId) o.id],
                  Except.ok ())) := by
  refine ⟨fun h => ?_, fun h => ⟨fun hnone => ?_, fun o hfind => ?_⟩⟩
  · unfold updateStatusFieldValueOnCard
    rw [if_pos h]
  · have hfind : (statusFieldOptions r).find? (fun x => x.name == ov) = none :=
      List.find?_eq_none.mpr (fun x hx => by simp [hnone x hx])
    unfold updateStatusFieldValueOnCard
    rw [if_neg h]
    dsimp only
    rw [hfind]
    rfl
  · constructor
    · have := List.find?_some hfind
      simpa using this
    · unfold updateStatusFieldValueOnCard
      rw [if_neg h]
      dsimp only
      rw [hfind]
      rfl

theorem status_override_behavior_witness :
    updateStatusFieldValueOnCard OwnerQueryTypes.organization "acme" 7 "PID" "ITEM1" "Done"
        ⟨some "PID", "I", "D", some ⟨"FID", some [⟨"OPT1", "Todo"⟩, ⟨"OPT2", "Done"⟩]⟩⟩ =
      ([Effect.queryStatusField OwnerQueryTypes.organization "acme" 7,
        Effect.updateFieldValue "PID" "ITEM1" (some "FID") "OPT2"], Except.ok ()) :=
  ((status_override_behavior OwnerQueryTypes.organization "acme" 7 "PID" "ITEM1" "Done"
      ⟨some "PID", "I", "D", some ⟨"FID", some [⟨"OPT1", "Todo"⟩, ⟨"OPT2", "Done"⟩]⟩⟩).2
    (by decide)).2 ⟨"OPT2", "Done"⟩ (by decide) |>.2

theorem updateStatus_effect_not_add (q : OwnerQueryTypes) (owner : String) (num : Nat)
    (pid iid ov : String) (r : Remote) :
    ∀ e ∈ (updateStatusFieldValueOnCard q owner num pid iid ov r).1,
      (∀ x y, e ≠ Effect.addItemById x y) ∧ ∀ x y, e ≠ Effect.addDraftIssue x y := by
  intro e he
  unfold updateStatusFieldValueOnCard at he
  by_cases h : ov.data.length = 0
  · rw [if_pos h] at he
    simp at he
  · rw [if_neg h] at he
    dsimp only at he
    cases hfind : ((statusFieldOptions r).find? (fun o => o.name == ov)).map StatusOption.id with
    | none =>
      rw [hfind] at he
      simp at he
      subst he
      exact ⟨fun x y => by simp, fun x y => by simp⟩
    | some oid =>
      rw [hfind] at he
      simp at he
      rcases he with he | he <;> subst he <;>
        exact ⟨fun x y => by simp, fun x y => by simp⟩

theorem addToProject_run_effects (inp : Inputs) (p : Payload) (r : Remote) (m : UrlMatch)
    (q : OwnerQueryTypes) (hf : filterGate inp p = true) (hu : urlParse inp.projectUrl = some m)
    (hq : mustGetOwnerTypeQuery (some m.ownerType) = Except.ok q) :
    (addToProject inp p r).1 =
      Effect.queryProjectId q m.ownerName (parseDigits m.projectNumber) ::
        (if p.repoOwnerLogin = some m.ownerName then
            [Effect.addItemById r.projectV2Id (p.issue.map Issue.node_id),
              Effect.setOutputItemId r.addItemId]
          else
            [Effect.addDraftIssue r.projectV2Id (p.issue.map Issue.html_url),
              Effect.setOutputItemId r.addDraftItemId]) ++
          (match r.projectV2Id with
            | none => []
            | some pid =>
              (updateStatusFieldValueOnCard q m.ownerName (parseDigits m.projectNumber) pid
                  (if p.repoOwnerLogin = some m.ownerName then r.addItemId else r.addDraftItemId)
                  inp.statusOverride r).1) := by
  unfold addToProject
  rw [hf]
  simp only [Bool.not_true, Bool.false_eq_true, if_false, hu, hq]
  by_cases ho : p.repoOwnerLogin = some m.ownerName <;>
    cases hpid : r.projectV2Id <;>
      simp [ho, hpid]

/-- Claim C6: the add-existing-item mutation is issued iff the issue
repository owner login equals (exactly) the project owner name parsed from
the URL; on a mismatch the add-draft-issue mutation is issued instead, with
the issue/PR html URL as the draft title; in both branches the returned item
id is written to the `itemId` output. -/
theorem owner_match_routes_mutation (inp : Inputs) (p : Payload) (r : Remote) (m : UrlMatch)
    (hf : filterGate inp p = true) (hu : urlParse inp.projectUrl = some m) :
    (p.repoOwnerLogin = some m.ownerName →
        Effect.addItemById r.projectV2Id (p.issue.map Issue.node_id) ∈ (addToProject inp p r).1 ∧
          Effect.setOutputItemId r.addItemId ∈ (addToProject inp p r).1 ∧
          ∀ x y, Effect.addDraftIssue x y ∉ (addToProject inp p r).1) ∧
      (p.repoOwnerLogin ≠ some m.ownerName →
        Effect.addDraftIssue r.projectV2Id (p.issue.map Issue.html_url) ∈
            (addToProject inp p r).1 ∧
          Effect.setOutputItemId r.addDraftItemId ∈ (addToProject inp p r).1 ∧
          ∀ x y, Effect.addItemById x y ∉ (addToProject inp p r).1) := by
  obtain ⟨q, hq⟩ : ∃ q, mustGetOwnerTypeQuery (some m.ownerType) = Except.ok q := by
    rcases urlParse_ownerType hu with h1 | h1
    · exact ⟨OwnerQueryTypes.organization, by rw [h1]; decide⟩
    · exact ⟨OwnerQueryTypes.user, by rw [h1]; decide⟩
  have heff := addToProject_run_effects inp p r m q hf hu hq
  constructor
  · intro ho
    refine ⟨?_, ?_, ?_⟩
    · rw [heff]
      simp [ho]
    · rw [heff]
      simp [ho]
    · intro x y hmem
      rw [heff] at hmem
      simp [ho] at hmem
      revert hmem
      cases hpid : r.projectV2Id with
      | none => simp
      | some pid =>
        intro hmem
        exact (updateStatus_effect_not_add _ _ _ _ _ _ _ _ hmem).2 x y rfl
  · intro ho
    refine ⟨?_, ?_, ?_⟩
    · rw [heff]
      simp [ho]
    · rw [heff]
      simp [ho]
    · intro x y hmem
      rw [heff] at hmem
      simp [ho] at hmem
      revert hmem
      cases hpid : r.projectV2Id with
      | none => simp
      | some pid =>
        intro hmem
        exact (updateStatus_effect_not_add _ _ _ _ _ _ _ _ hmem).1 x y rfl

theorem owner_match_routes_mutation_witness :
    Effect.addItemById (some "PID") (some "NODE1") ∈
      (addToProject ⟨"https://github.com/orgs/acme/projects/7", "", "", ""⟩
        ⟨some ⟨1, [], "NODE1", "HURL"⟩, some "acme"⟩ ⟨some "PID", "ITEM1", "DRAFT1", none⟩).1 :=
  ((owner_match_routes_mutation ⟨"https://github.com/orgs/acme/projects/7", "", "", ""⟩
      ⟨some ⟨1, [], "NODE1", "HURL"⟩, some "acme"⟩ ⟨some "PID", "ITEM1", "DRAFT1", none⟩
      ⟨"orgs", "acme", "7"⟩ (by decide) (by decide)).1 rfl).1

end AddToProject
